import Mathlib

/-!
Verification of the session/provider controller of the opencode TUI
(`packages/tui/internal/app/app.go`) against its natural-language
specification.

The Go code is shallowly embedded: structs become structures, Go maps become
association lists carrying one concrete iteration order (Go map iteration
order is unspecified; the spec itself flags the resulting non-determinism),
pointers become `Option`, numeric JSON timestamps become `Int` (the float
subtraction `a - b > 0` used by the code decides exactly `a > b`, so `Int`
is value-faithful for every comparison the claims exercise), and each
network round trip is a value describing the response the remote service
produced (transport error, status code, decoded body).

Loop-variable semantics follow Go ≥ 1.22 (per-iteration variables), the
language version of the repository's toolchain.
-/

namespace Opencode

/-! ## Data model (client package structs used by app.go) -/

/-- `client.ModelInfo`: a selectable model. -/
structure ModelInfo where
  id : String
  name : String
deriving Repr, DecidableEq

/-- `client.ProviderInfo`: a model vendor.  `Models` is a Go
`map[string]ModelInfo`; it is embedded as an association list recording one
iteration order. -/
structure ProviderInfo where
  id : String
  models : List (String × ModelInfo)
deriving Repr, DecidableEq

/-- Go's zero value for `ModelInfo` (all fields empty). -/
def zeroModel : ModelInfo := ⟨"", ""⟩

/-- Lookup in an embedded Go map: the `v, ok := m[k]` form. -/
def mapLookup {α : Type} (m : List (String × α)) (k : String) : Option α :=
  (m.find? (fun e => e.1 = k)).map (·.2)

/-- Indexing an embedded Go map: `m[k]` yields the zero value when the key
is absent. -/
def mapIndex (m : List (String × ModelInfo)) (k : String) : ModelInfo :=
  (mapLookup m k).getD zeroModel

/-- The decoded body of `PostProviderList`:
`{providers: [ProviderInfo], default: map[providerID]modelID}`. -/
structure ProvidersResponse where
  providers : List ProviderInfo
  defaultMap : List (String × String)
deriving Repr, DecidableEq

/-- Persisted TUI state (`config.State`): the fields read by
`InitializeProvider`. -/
structure State where
  provider : String
  model : String
deriving Repr, DecidableEq

/-! ## Provider/model resolution (`InitializeProvider`, `getDefaultModel`) -/

/-- `getDefaultModel` (app.go:200-210): if the server's defaults map has an
entry for the provider, index the provider's model map with it (Go map
indexing: zero value when absent) and return its address; otherwise return
the first model in map-iteration order, or nil for an empty map. -/
def getDefaultModel (response : ProvidersResponse) (provider : ProviderInfo) :
    Option ModelInfo :=
  match mapLookup response.defaultMap provider.id with
  | some m => some (mapIndex provider.models m)
  | none => provider.models.head?.map (·.2)

/-- One iteration of the first loop of `InitializeProvider`
(app.go:149-154): keep the current provider when its id is `"anthropic"`,
overwriting any earlier match. -/
def anthropicStep (anthropic : Option ProviderInfo)
    (provider : ProviderInfo) : Option ProviderInfo :=
  if provider.id = "anthropic" then some provider else anthropic

/-- First loop of `InitializeProvider` (app.go:149-154). -/
def findAnthropic (providers : List ProviderInfo) : Option ProviderInfo :=
  providers.foldl anthropicStep none

/-- Seeding of the preliminary default (app.go:156-160): default to
anthropic if available. -/
def seedDefault (response : ProvidersResponse) :
    Option ProviderInfo × Option ModelInfo :=
  match findAnthropic response.providers with
  | some anthropic => (some anthropic, getDefaultModel response anthropic)
  | none => (none, none)

/-- One iteration of the second loop of `InitializeProvider`
(app.go:162-168): while either the default provider or the default model is
still nil, overwrite both with the current provider and its default model.
-/
def defaultStep (response : ProvidersResponse)
    (acc : Option ProviderInfo × Option ModelInfo)
    (provider : ProviderInfo) : Option ProviderInfo × Option ModelInfo :=
  if acc.1.isNone || acc.2.isNone then
    (some provider, getDefaultModel response provider)
  else acc

/-- Second loop of `InitializeProvider` (app.go:162-168). -/
def defaultLoop (response : ProvidersResponse)
    (init : Option ProviderInfo × Option ModelInfo) :
    Option ProviderInfo × Option ModelInfo :=
  response.providers.foldl (defaultStep response) init

/-- The preliminary default pair computed by app.go:149-168. -/
def defaultPair (response : ProvidersResponse) :
    Option ProviderInfo × Option ModelInfo :=
  defaultLoop response (seedDefault response)

/-- One iteration of the inner model scan of the reconciliation loop
(app.go:180-184): overwrite `currentModel` whenever a model's `Id` field
equals the persisted model id. -/
def modelStep (state : State) (cm : Option ModelInfo)
    (entry : String × ModelInfo) : Option ModelInfo :=
  if entry.2.id = state.model then some entry.2 else cm

/-- One iteration of the reconciliation loop (app.go:176-186): on a
provider-id match overwrite `currentProvider` and run the inner model
scan over that provider's models. -/
def reconcileStep (state : State)
    (acc : Option ProviderInfo × Option ModelInfo)
    (provider : ProviderInfo) : Option ProviderInfo × Option ModelInfo :=
  if provider.id = state.provider then
    (some provider, provider.models.foldl (modelStep state) acc.2)
  else acc

/-- Reconciliation loop with persisted state (app.go:174-186). -/
def reconcile (state : State) (providers : List ProviderInfo) :
    Option ProviderInfo × Option ModelInfo :=
  providers.foldl (reconcileStep state) (none, none)

/-- Observable outcome of the `InitializeProvider` command: `nilMsg` is a
`return nil` — the command completes delivering no message at all (the
transport-error, non-200 and empty-provider-list branches all end this
way, distinguishable only in the log); `msg` is the final
`ModelSelectedMsg`; `nilDeref` is the unguarded nil-pointer dereference at
app.go:193-196 when a resolved pointer is still nil. -/
inductive InitResult where
  | nilMsg
  | nilDeref
  | msg (provider : ProviderInfo) (model : ModelInfo)
deriving Repr, DecidableEq

/-- `InitializeProvider` (app.go:145-198) after a successful
`PostProviderList` fetch: computes the preliminary default pair, logs and
returns nil (no message) when no providers are configured, reconciles with
persisted state, and dereferences the resolved pointers to build
`ModelSelectedMsg`. -/
def InitializeProvider (state : State) (response : ProvidersResponse) :
    InitResult :=
  let dpair := defaultPair response
  if response.providers.isEmpty then .nilMsg
  else
    let cpair := reconcile state response.providers
    let rpair := if cpair.1.isNone || cpair.2.isNone then dpair else cpair
    match rpair.1, rpair.2 with
    | some p, some m => .msg p m
    | _, _ => .nilDeref

/-- One remote `PostProviderList` round trip as observed by the client: an
optional transport error, the status code, and the decoded body of a 200
response. -/
structure ProviderListResponse where
  err : Option String
  statusCode : Nat
  json200 : ProvidersResponse
deriving Repr, DecidableEq

/-- The full `InitializeProvider` command (app.go:133-198) including its
fetch branches: a transport error (app.go:136-140) or a non-200 status
(app.go:141-144) is logged and the command returns nil — the very same nil
message the empty-provider-list branch returns; otherwise the resolution
logic runs on the decoded body. -/
def InitializeProviderCmd (state : State) (resp : ProviderListResponse) :
    InitResult :=
  match resp.err with
  | some _ => .nilMsg
  | none =>
    if resp.statusCode ≠ 200 then .nilMsg
    else InitializeProvider state resp.json200

/-! ## Sessions, messages and the chat send orchestrator -/

/-- `client.SessionInfo`: a conversation.  `Time.Created` is a numeric JSON
timestamp, embedded as `Int`. -/
structure SessionInfo where
  id : String
  timeCreated : Int
deriving Repr, DecidableEq

/-- `client.MessagePartText`. -/
structure MessagePartText where
  type : String
  text : String
deriving Repr, DecidableEq

/-- `client.MessagePart`: a union; `FromMessagePartText` selects the text
variant (the only variant app.go constructs). -/
inductive MessagePart where
  | text (part : MessagePartText)
deriving Repr, DecidableEq

/-- `client.MessageMetadata`: the fields app.go reads or writes.  The Go
struct also carries a `Tool` map, which app.go only initializes empty and
never reads; it is omitted. -/
structure MessageMetadata where
  sessionID : String
  timeCreated : Int
  timeCompleted : Option Int
deriving Repr, DecidableEq

/-- `client.MessageInfo`: one turn in a session.  `client.User` is the role
string `"user"`. -/
structure MessageInfo where
  id : String
  role : String
  parts : List MessagePart
  metadata : MessageMetadata
deriving Repr, DecidableEq

/-- `app.Attachment` (app.go:212-217). -/
structure Attachment where
  filePath : String
  fileName : String
  mimeType : String
  content : List UInt8
deriving Repr, DecidableEq

/-- The shared `App` state touched by the operations under verification.
`New` (app.go:118-128) initializes `Session` to a non-nil empty
`SessionInfo` and `Messages` to an empty slice; `Provider`/`Model` are nil
pointers until a `ModelSelectedMsg` is applied. -/
structure App where
  session : SessionInfo
  messages : List MessageInfo
  provider : Option ProviderInfo
  model : Option ModelInfo
  state : State
deriving Repr, DecidableEq

/-- One remote `PostSessionCreate` round trip as observed by the client:
an optional transport error, the response status code, and the decoded
session for a 200 response. -/
structure CreateSessionResponse where
  err : Option String
  statusCode : Nat
  json200 : SessionInfo
deriving Repr, DecidableEq

/-- `CreateSession` (app.go:295-305): transport errors propagate, a
non-200 status becomes `failed to create session: <status>`, otherwise the
decoded session is returned. -/
def CreateSession (resp : CreateSessionResponse) : Except String SessionInfo :=
  match resp.err with
  | some e => .error e
  | none =>
    if resp.statusCode ≠ 200 then
      .error ("failed to create session: " ++ toString resp.statusCode)
    else .ok resp.json200

/-- The body of `PostSessionChat` (app.go:345-350). -/
structure ChatRequest where
  sessionID : String
  parts : List MessagePart
  providerID : String
  modelID : String
deriving Repr, DecidableEq

/-- The dispatched chat request: built inside the async command from the
app's session, the constructed parts, and the selected provider/model
pointers (a nil provider or model pointer would fault, encoded as `none`).
-/
def chatBody (a : App) (parts : List MessagePart) : Option ChatRequest :=
  match a.provider, a.model with
  | some p, some m =>
    some { sessionID := a.session.id, parts := parts,
           providerID := p.id, modelID := m.id }
  | _, _ => none

/-- The messages/commands `SendChatMessage` emits, in issuance order:
`SessionSelectedMsg`, `OptimisticMessageAddedMsg`, the async network send,
and `toast.NewErrorToast`. -/
inductive Cmd where
  | sessionSelected (session : SessionInfo)
  | optimisticMessageAdded (message : MessageInfo)
  | dispatchChat (request : Option ChatRequest)
  | errorToast (message : String)
deriving Repr, DecidableEq

/-- The outcome of `SendChatMessage`: the updated `App` and the batched
commands in issuance order. -/
structure SendResult where
  app : App
  cmds : List Cmd
deriving Repr, DecidableEq

/-- `IsBusy` (app.go:219-226): false on an empty message sequence,
otherwise whether the last message's completion timestamp is nil. -/
def IsBusy (a : App) : Bool :=
  match a.messages.getLast? with
  | none => false
  | some lastMessage => lastMessage.metadata.timeCompleted.isNone

/-- `SendChatMessage` (app.go:307-367).  Inputs beyond the Go parameters:
the `PostSessionCreate` response consumed if lazy session creation runs,
and the two `time.Now()` readings (`UnixNano` for the optimistic id,
`Unix` for the creation timestamp).  On an empty session id a session is
created synchronously first; failure aborts with an error toast and leaves
the app untouched.  Then one text part is built from `text` (the
`attachments` parameter is unused by the Go code), the optimistic message
is appended, and the network send is dispatched. -/
def SendChatMessage (a : App) (createResp : CreateSessionResponse)
    (nowNanos : Int) (nowUnix : Int) (text : String)
    (attachments : List Attachment) : SendResult :=
  let step1 : Except String (App × List Cmd) :=
    if a.session.id = "" then
      match CreateSession createResp with
      | .error e => .error e
      | .ok session => .ok ({ a with session := session },
                            [.sessionSelected session])
    else .ok (a, [])
  match step1 with
  | .error e => ⟨a, [.errorToast e]⟩
  | .ok (a1, cmds) =>
    let part : MessagePart := .text { type := "text", text := text }
    let parts : List MessagePart := [part]
    let optimisticMessage : MessageInfo :=
      { id := "optimistic-" ++ toString nowNanos
        role := "user"
        parts := parts
        metadata :=
          { sessionID := a1.session.id
            timeCreated := nowUnix
            timeCompleted := none } }
    let a2 := { a1 with messages := a1.messages ++ [optimisticMessage] }
    ⟨a2, cmds ++ [.optimisticMessageAdded optimisticMessage,
                  .dispatchChat (chatBody a2 parts)]⟩

/-! ## Go's `sort.Slice` (pdqsort, `sort/zsortfunc.go`)

`ListSessions` sorts via `sort.Slice`, whose behaviour on ties is decided by
Go's pdqsort implementation, embedded here over `List α` with index-based
reads (`getD`) and swaps.  Go `int` indices are `Nat` (all index arithmetic
below stays non-negative along reachable paths, matching Go).  Loops with a
non-structural measure carry a fuel argument large enough for every run the
theorems evaluate; fuel 0 returns the list unchanged and is unreachable for
the budgets used. -/

/-- `data.Less(i, j)`. -/
def lessAt {α : Type} [Inhabited α] (less : α → α → Bool) (l : List α)
    (i j : Nat) : Bool :=
  less (l.getD i default) (l.getD j default)

/-- `data.Swap(i, j)`. -/
def swapGo {α : Type} [Inhabited α] (l : List α) (i j : Nat) : List α :=
  let xi := l.getD i default
  let xj := l.getD j default
  (l.set i xj).set j xi

/-- The inner loop of `insertionSort_func`
(`for j := i; j > a && data.Less(j, j-1); j--: data.Swap(j, j-1)`), viewed
on the already-processed part of the segment held in reversed order
(`rp`, head = rightmost): the new element keeps swapping left past each
neighbour `y` while `less x y`, and stops at the first neighbour for which
that fails. -/
def bubbleIns {α : Type} (less : α → α → Bool) (x : α) : List α → List α
  | [] => [x]
  | y :: rp => if less x y then y :: bubbleIns less x rp else x :: y :: rp

/-- `insertionSort_func` on a whole list: the outer loop
(`for i := a+1; i < b; i++`) consumes the elements left to right, each one
inserted into the processed prefix by `bubbleIns`; the reversed accumulator
is reversed back at the end. -/
def insertionSortList {α : Type} (less : α → α → Bool) (l : List α) :
    List α :=
  (l.foldl (fun rp x => bubbleIns less x rp) []).reverse

/-- `insertionSort_func(data, a, b)`: sorts the segment `data[a:b]` in
place; elements outside the segment are untouched. -/
def insertionSortSeg {α : Type} (less : α → α → Bool) (l : List α)
    (a b : Nat) : List α :=
  l.take a ++ insertionSortList less ((l.drop a).take (b - a)) ++ l.drop b

/-- `siftDown_func(data, lo, hi, first)`; the recursion parameter is the
current `root`, and the fuel bounds the (at most `hi`) descents. -/
def siftDownGo {α : Type} [Inhabited α] (less : α → α → Bool)
    (hi first : Nat) : Nat → List α → Nat → List α
  | 0, l, _ => l
  | fuel + 1, l, root =>
    let child := 2 * root + 1
    if child ≥ hi then l
    else
      let child :=
        if child + 1 < hi ∧ lessAt less l (first + child) (first + child + 1)
        then child + 1 else child
      if ¬ lessAt less l (first + root) (first + child) then l
      else siftDownGo less hi first fuel
             (swapGo l (first + root) (first + child)) child

/-- Heap-building loop of `heapSort_func`
(`for i := (hi-1)/2; i >= 0; i--`); the counter is `i + 1`. -/
def heapBuildGo {α : Type} [Inhabited α] (less : α → α → Bool)
    (hi first : Nat) : Nat → List α → List α
  | 0, l => l
  | k + 1, l => heapBuildGo less hi first k (siftDownGo less hi first hi l k)

/-- Pop loop of `heapSort_func` (`for i := hi-1; i >= 0; i--`); the counter
is `i + 1`. -/
def heapPopGo {α : Type} [Inhabited α] (less : α → α → Bool)
    (first : Nat) : Nat → List α → List α
  | 0, l => l
  | k + 1, l =>
    heapPopGo less first k
      (siftDownGo less k first k (swapGo l first (first + k)) 0)

/-- `heapSort_func(data, a, b)`. -/
def heapSortGo {α : Type} [Inhabited α] (less : α → α → Bool) (l : List α)
    (a b : Nat) : List α :=
  let first := a
  let hi := b - a
  heapPopGo less first hi (heapBuildGo less hi first ((hi - 1) / 2 + 1) l)

/-- `for i <= j && data.Less(i, a): i++` scan of `partition_func`. -/
def scanIGo {α : Type} [Inhabited α] (less : α → α → Bool) (l : List α)
    (a j : Nat) : Nat → Nat → Nat
  | 0, i => i
  | fuel + 1, i =>
    if i ≤ j ∧ lessAt less l i a then scanIGo less l a j fuel (i + 1) else i

/-- `for i <= j && !data.Less(j, a): j--` scan of `partition_func`. -/
def scanJGo {α : Type} [Inhabited α] (less : α → α → Bool) (l : List α)
    (a i : Nat) : Nat → Nat → Nat
  | 0, j => j
  | fuel + 1, j =>
    if i ≤ j ∧ ¬ lessAt less l j a then scanJGo less l a i fuel (j - 1) else j

/-- The swap loop of `partition_func` after its first-stage scans. -/
def partitionLoopGo {α : Type} [Inhabited α] (less : α → α → Bool)
    (a b : Nat) : Nat → List α → Nat → Nat → List α × Nat × Nat
  | 0, l, i, j => (l, i, j)
  | fuel + 1, l, i, j =>
    let i := scanIGo less l a j b i
    let j := scanJGo less l a i b j
    if i > j then (l, i, j)
    else partitionLoopGo less a b fuel (swapGo l i j) (i + 1) (j - 1)

/-- `partition_func(data, a, b, pivot)`: returns the permuted list, the new
pivot position, and `alreadyPartitioned`. -/
def partitionGo {α : Type} [Inhabited α] (less : α → α → Bool) (l : List α)
    (a b pivot : Nat) : List α × Nat × Bool :=
  let l := swapGo l a pivot
  let i := scanIGo less l a (b - 1) b (a + 1)
  let j := scanJGo less l a i b (b - 1)
  if i > j then (swapGo l j a, j, true)
  else
    let l := swapGo l i j
    let r := partitionLoopGo less a b b l (i + 1) (j - 1)
    (swapGo r.1 r.2.2 a, r.2.2, false)

/-- The swap loop of `partitionEqual_func`. -/
def partitionEqualLoopGo {α : Type} [Inhabited α] (less : α → α → Bool)
    (a b : Nat) : Nat → List α → Nat → Nat → List α × Nat
  | 0, l, i, _ => (l, i)
  | fuel + 1, l, i, j =>
    let i := eqScanI fuel l j i
    let j := eqScanJ fuel l i j
    if i > j then (l, i)
    else partitionEqualLoopGo less a b fuel (swapGo l i j) (i + 1) (j - 1)
where
  /-- `for i <= j && !data.Less(a, i): i++`. -/
  eqScanI : Nat → List α → Nat → Nat → Nat
    | 0, _, _, i => i
    | fuel + 1, l, j, i =>
      if i ≤ j ∧ ¬ lessAt less l a i then eqScanI fuel l j (i + 1) else i
  /-- `for i <= j && data.Less(a, j): j--`. -/
  eqScanJ : Nat → List α → Nat → Nat → Nat
    | 0, _, _, j => j
    | fuel + 1, l, i, j =>
      if i ≤ j ∧ lessAt less l a j then eqScanJ fuel l i (j - 1) else j

/-- `partitionEqual_func(data, a, b, pivot)`. -/
def partitionEqualGo {α : Type} [Inhabited α] (less : α → α → Bool)
    (l : List α) (a b pivot : Nat) : List α × Nat :=
  partitionEqualLoopGo less a b b (swapGo l a pivot) (a + 1) (b - 1)

/-- `for i < b && !data.Less(i, i-1): i++` scan of
`partialInsertionSort_func`. -/
def pisFindGo {α : Type} [Inhabited α] (less : α → α → Bool) (l : List α)
    (b : Nat) : Nat → Nat → Nat
  | 0, i => i
  | fuel + 1, i =>
    if i < b ∧ ¬ lessAt less l i (i - 1) then pisFindGo less l b fuel (i + 1)
    else i

/-- Left-shift loop of `partialInsertionSort_func`
(`for j := i-1; j >= 1; j--`). -/
def pisShiftLeftGo {α : Type} [Inhabited α] (less : α → α → Bool) :
    List α → Nat → List α
  | l, 0 => l
  | l, j + 1 =>
    if ¬ lessAt less l (j + 1) j then l
    else pisShiftLeftGo less (swapGo l (j + 1) j) j

/-- Right-shift loop of `partialInsertionSort_func`
(`for j := i+1; j < b; j++`). -/
def pisShiftRightGo {α : Type} [Inhabited α] (less : α → α → Bool)
    (b : Nat) : Nat → List α → Nat → List α
  | 0, l, _ => l
  | fuel + 1, l, j =>
    if j < b then
      if ¬ lessAt less l j (j - 1) then l
      else pisShiftRightGo less b fuel (swapGo l j (j - 1)) (j + 1)
    else l

/-- `partialInsertionSort_func(data, a, b)`: at most `maxSteps = 5`
adjacent out-of-order pairs are repaired (no shifting below
`shortestShifting = 50` elements); returns whether the segment ended up
sorted. -/
def partialInsertionSortGo {α : Type} [Inhabited α] (less : α → α → Bool)
    (a b : Nat) : Nat → List α → Nat → List α × Bool
  | 0, l, _ => (l, false)
  | steps + 1, l, i =>
    let i := pisFindGo less l b b i
    if i = b then (l, true)
    else if b - a < 50 then (l, false)
    else
      let l := swapGo l i (i - 1)
      let l := if i - a ≥ 2 then pisShiftLeftGo less l (i - 1) else l
      let l := if b - i ≥ 2 then pisShiftRightGo less b b l (i + 1) else l
      partialInsertionSortGo less a b steps l i

/-- `order2_func(data, a, b, &swaps)`. -/
def order2Go {α : Type} [Inhabited α] (less : α → α → Bool) (l : List α)
    (a b swaps : Nat) : Nat × Nat × Nat :=
  if lessAt less l b a then (b, a, swaps + 1) else (a, b, swaps)

/-- `median_func(data, a, b, c, &swaps)`: returns the median index and the
updated swap count. -/
def medianGo {α : Type} [Inhabited α] (less : α → α → Bool) (l : List α)
    (a b c swaps : Nat) : Nat × Nat :=
  let p1 := order2Go less l a b swaps
  let p2 := order2Go less l p1.2.1 c p1.2.2
  let p3 := order2Go less l p1.1 p2.1 p2.2.2
  (p3.2.1, p3.2.2)

/-- `medianAdjacent_func(data, a, &swaps)`. -/
def medianAdjacentGo {α : Type} [Inhabited α] (less : α → α → Bool)
    (l : List α) (a swaps : Nat) : Nat × Nat :=
  medianGo less l (a - 1) a (a + 1) swaps

/-- The three sortedness hints of `choosePivot_func`. -/
inductive SortedHint where
  | increasing
  | decreasing
  | unknown
deriving Repr, DecidableEq

/-- `choosePivot_func(data, a, b)`: median-of-three (Tukey ninther from 50
elements up), with `swaps = 0` hinting an increasing run and
`swaps = maxSwaps = 12` a decreasing one. -/
def choosePivotGo {α : Type} [Inhabited α] (less : α → α → Bool)
    (l : List α) (a b : Nat) : Nat × SortedHint :=
  let len := b - a
  let i := a + len / 4 * 1
  let j := a + len / 4 * 2
  let k := a + len / 4 * 3
  let pr : Nat × Nat :=
    if len ≥ 8 then
      if len ≥ 50 then
        let mi := medianAdjacentGo less l i 0
        let mj := medianAdjacentGo less l j mi.2
        let mk := medianAdjacentGo less l k mj.2
        medianGo less l mi.1 mj.1 mk.1 mk.2
      else medianGo less l i j k 0
    else (j, 0)
  if pr.2 = 0 then (pr.1, .increasing)
  else if pr.2 = 12 then (pr.1, .decreasing)
  else (pr.1, .unknown)

/-- `bits.Len` on a `uint`. -/
def bitsLen (n : Nat) : Nat := if n = 0 then 0 else Nat.log2 n + 1

/-- `nextPowerOfTwo(length) = 1 << bits.Len(uint(length))`. -/
def nextPowerOfTwo (length : Nat) : Nat := 1 <<< bitsLen length

/-- One step of the `xorshift` generator used by `breakPatterns_func`
(`*r ^= *r << 13; *r ^= *r >> 17; *r ^= *r << 5`), on 64-bit words. -/
def xorshiftNext (r : Nat) : Nat :=
  let r1 := Nat.xor r ((r <<< 13) % 18446744073709551616)
  let r2 := Nat.xor r1 (r1 >>> 17)
  Nat.xor r2 ((r2 <<< 5) % 18446744073709551616)

/-- `breakPatterns_func(data, a, b)`: scatters three elements near the
middle pivot candidate using the xorshift stream seeded with the segment
length. -/
def breakPatternsGo {α : Type} [Inhabited α] (l : List α) (a b : Nat) :
    List α :=
  let length := b - a
  if length ≥ 8 then
    let modulus := nextPowerOfTwo length
    let idx := a + length / 4 * 2 - 1
    let step := fun (st : List α × Nat) (i : Nat) =>
      let r := xorshiftNext st.2
      let other := Nat.land r (modulus - 1)
      let other := if other ≥ length then other - length else other
      (swapGo st.1 (idx - 1 + i) (a + other), r)
    (([0, 1, 2].foldl step (l, length))).1
  else l

/-- `reverseRange_func(data, a, b)` two-pointer loop. -/
def revLoopGo {α : Type} [Inhabited α] : Nat → List α → Nat → Nat → List α
  | 0, l, _, _ => l
  | fuel + 1, l, i, j =>
    if i < j then revLoopGo fuel (swapGo l i j) (i + 1) (j - 1) else l

/-- `reverseRange_func(data, a, b)`. -/
def reverseRangeGo {α : Type} [Inhabited α] (l : List α) (a b : Nat) :
    List α :=
  revLoopGo b l a (b - 1)

/-- `pdqsort_func(data, a, b, limit)` (`maxInsertion = 12`).  Both the
`continue` of the Go loop (which keeps the current
`wasBalanced`/`wasPartitioned`) and the recursive call on the shorter side
(which re-enters with both flags `true`) consume one unit of fuel. -/
def pdqsortGo {α : Type} [Inhabited α] (less : α → α → Bool) :
    Nat → List α → Nat → Nat → Nat → Bool → Bool → List α
  | 0, l, _, _, _, _, _ => l
  | fuel + 1, l, a, b, limit, wasBalanced, wasPartitioned =>
    let length := b - a
    if length ≤ 12 then insertionSortSeg less l a b
    else if limit = 0 then heapSortGo less l a b
    else
      let bp : List α × Nat :=
        if ¬ wasBalanced then (breakPatternsGo l a b, limit - 1)
        else (l, limit)
      let l := bp.1
      let limit := bp.2
      let ph := choosePivotGo less l a b
      let rv : List α × Nat × SortedHint :=
        if ph.2 = SortedHint.decreasing then
          (reverseRangeGo l a b, (b - 1) - (ph.1 - a), SortedHint.increasing)
        else (l, ph.1, ph.2)
      let l := rv.1
      let pivot := rv.2.1
      let hint := rv.2.2
      let ps : List α × Bool :=
        if wasBalanced ∧ wasPartitioned ∧ hint = SortedHint.increasing then
          partialInsertionSortGo less a b 5 l (a + 1)
        else (l, false)
      let l := ps.1
      if ps.2 then l
      else if 0 < a ∧ ¬ lessAt less l (a - 1) pivot then
        let pe := partitionEqualGo less l a b pivot
        pdqsortGo less fuel pe.1 pe.2 b limit wasBalanced wasPartitioned
      else
        let pt := partitionGo less l a b pivot
        let l := pt.1
        let mid := pt.2.1
        let wasPartitioned := pt.2.2
        let leftLen := mid - a
        let rightLen := b - mid
        let balanceThreshold := length / 8
        let wasBalanced := decide (min leftLen rightLen ≥ balanceThreshold)
        if leftLen < rightLen then
          let l := pdqsortGo less fuel l a mid limit true true
          pdqsortGo less fuel l (mid + 1) b limit wasBalanced wasPartitioned
        else
          let l := pdqsortGo less fuel l (mid + 1) b limit true true
          pdqsortGo less fuel l a mid limit wasBalanced wasPartitioned

/-- `sort.Slice(x, less)`: `pdqsort_func(lessSwap, 0, length,
bits.Len(uint(length)))`.  The fuel `2·length + 16` covers every run the
theorems below evaluate. -/
def sortSliceGo {α : Type} [Inhabited α] (less : α → α → Bool)
    (l : List α) : List α :=
  pdqsortGo less (2 * l.length + 16) l 0 l.length (bitsLen l.length) true true

/-! ## `ListSessions` -/

instance : Inhabited SessionInfo := ⟨⟨"", 0⟩⟩

/-- The comparison closure passed to `sort.Slice` by `ListSessions`
(app.go:399-401): `sessions[i].Time.Created - sessions[j].Time.Created > 0`
(on exact numeric timestamps this decides `created i > created j`). -/
def sessionLess (s t : SessionInfo) : Bool :=
  decide (s.timeCreated - t.timeCreated > 0)

/-- One remote `PostSessionList` round trip. -/
structure ListSessionsResponse where
  err : Option String
  statusCode : Nat
  json200 : Option (List SessionInfo)
deriving Repr, DecidableEq

/-- `ListSessions` (app.go:386-404): transport errors propagate, a non-200
status becomes an error, a missing body yields the empty list, and the
decoded sessions are sorted with `sort.Slice` under `sessionLess`. -/
def ListSessions (resp : ListSessionsResponse) :
    Except String (List SessionInfo) :=
  match resp.err with
  | some e => .error e
  | none =>
    if resp.statusCode ≠ 200 then
      .error ("failed to list sessions: " ++ toString resp.statusCode)
    else
      match resp.json200 with
      | none => .ok []
      | some sessions => .ok (sortSliceGo sessionLess sessions)

/-! ## Spec-side predicates and characterizations used in the theorems -/

/-- The spec's data-model invariant: provider ids are unique within a fetch
result. -/
def uniqueIds (providers : List ProviderInfo) : Prop :=
  (providers.map (·.id)).Nodup

/-- Both halves of the persisted pair occur in the fetch: some provider has
the persisted id and one of its models' `Id` fields equals the persisted
model id (the fields `InitializeProvider` compares). -/
def persistedMatch (state : State) (providers : List ProviderInfo) : Prop :=
  ∃ p ∈ providers, p.id = state.provider ∧ ∃ e ∈ p.models, e.2.id = state.model

instance (state : State) (providers : List ProviderInfo) :
    Decidable (persistedMatch state providers) := by
  unfold persistedMatch; infer_instance

instance (providers : List ProviderInfo) :
    Decidable (uniqueIds providers) := by
  unfold uniqueIds; infer_instance

/-- The model the reconciliation loop of `InitializeProvider` leaves in
`currentModel` for a given provider: the last model entry whose `Id` field
equals the persisted model id. -/
def lastModelMatch (state : State) (p : ProviderInfo) : Option ModelInfo :=
  p.models.foldl (modelStep state) none

/-- The comparison `sort.Slice` applies to index-tagged sessions: it reads
only the session, never the tag, so running the same algorithm on tagged
input tracks where each input position ends up. -/
def sessionLessIdx (p q : Nat × SessionInfo) : Bool := sessionLess p.2 q.2

/-- The insertion-sort run on index-tagged sessions (the regime
`sort.Slice` uses for at most 12 elements). -/
def sortIdxRun (l : List SessionInfo) : List (Nat × SessionInfo) :=
  insertionSortList sessionLessIdx l.enum

/-- Descending-with-stable-ties ordering on index-tagged sessions: later
output entries have strictly smaller creation time, or an equal creation
time and a strictly larger input position. -/
def IdxOrdered (p q : Nat × SessionInfo) : Prop :=
  q.2.timeCreated < p.2.timeCreated ∨
    (q.2.timeCreated = p.2.timeCreated ∧ p.1 < q.1)

/-- The provider the default loop leaves in place when no provider's
default model resolves: the last provider scanned, or the seed for an empty
list. -/
def lastOr (providers : List ProviderInfo) (x : Option ProviderInfo) :
    Option ProviderInfo :=
  match providers.getLast? with
  | some q => some q
  | none => x

/-! ## Concrete inputs for counterexamples and witnesses -/

/-- C1/C3 counterexample material: a provider with an empty model map and
no defaults entry followed by one with a model. -/
def c1resp : ProvidersResponse :=
  ⟨[⟨"anthropic", []⟩, ⟨"zeta", [("m1", ⟨"m1", "M1"⟩)]⟩], []⟩

/-- C3 counterexample: no anthropic; first provider has no models and no
defaults entry. -/
def c3resp : ProvidersResponse :=
  ⟨[⟨"alpha", []⟩, ⟨"beta", [("m1", ⟨"m1", "M1"⟩)]⟩], []⟩

/-- The spec's §8 resolution scenario. -/
def scenarioResp : ProvidersResponse :=
  ⟨[⟨"openai", [("gpt", ⟨"gpt", "GPT"⟩)]⟩,
    ⟨"anthropic", [("claude-3", ⟨"claude-3", "Claude 3"⟩)]⟩],
   [("anthropic", "claude-3")]⟩

/-- C4 counterexample input: 13 sessions (one more than pdqsort's
insertion-sort cutoff), creation times ascending with a tie between
sessions `"e"` and `"f"`. -/
def c4in : List SessionInfo :=
  [⟨"a", 1⟩, ⟨"b", 2⟩, ⟨"c", 3⟩, ⟨"d", 4⟩, ⟨"e", 5⟩, ⟨"f", 5⟩, ⟨"g", 6⟩,
   ⟨"h", 7⟩, ⟨"i", 8⟩, ⟨"j", 9⟩, ⟨"k", 10⟩, ⟨"l", 11⟩, ⟨"m", 12⟩]

/-- What Go's `sort.Slice` produces on `c4in`: descending, but the equal
pair comes out as `"f"` before `"e"`, the reverse of their input order. -/
def c4out : List SessionInfo :=
  [⟨"m", 12⟩, ⟨"l", 11⟩, ⟨"k", 10⟩, ⟨"j", 9⟩, ⟨"i", 8⟩, ⟨"h", 7⟩, ⟨"g", 6⟩,
   ⟨"f", 5⟩, ⟨"e", 5⟩, ⟨"d", 4⟩, ⟨"c", 3⟩, ⟨"b", 2⟩, ⟨"a", 1⟩]

/-- A fixed app with an active session and a selected provider/model, used
by the `SendChatMessage` counterexample and witnesses. -/
def wApp : App :=
  ⟨⟨"sess-1", 10⟩, [], some ⟨"anthropic", [("claude-3", ⟨"claude-3", "Claude 3"⟩)]⟩,
   some ⟨"claude-3", "Claude 3"⟩, ⟨"anthropic", "claude-3"⟩⟩

/-- A successful `PostSessionCreate` response. -/
def wCreateOk : CreateSessionResponse := ⟨none, 200, ⟨"sess-new", 42⟩⟩

/-- A failed (non-success status) `PostSessionCreate` response. -/
def wCreateFail : CreateSessionResponse := ⟨none, 500, ⟨"", 0⟩⟩

/-- A concrete attachment. -/
def wAttachment : Attachment := ⟨"/tmp/a.txt", "a.txt", "text/plain", [104, 105]⟩

/-! ## Helper lemmas: the anthropic scan -/

theorem foldl_anthropicStep_stay (ps : List ProviderInfo)
    (h : ∀ p ∈ ps, p.id ≠ "anthropic") (acc : Option ProviderInfo) :
    ps.foldl anthropicStep acc = acc := by
  induction ps generalizing acc with
  | nil => rfl
  | cons p rest ih =>
    have hp := h p (List.mem_cons_self p rest)
    simp only [List.foldl_cons, anthropicStep, if_neg hp]
    exact ih (fun q hq => h q (List.mem_cons_of_mem _ hq)) acc

theorem findAnthropic_of_absent (ps : List ProviderInfo)
    (h : ∀ p ∈ ps, p.id ≠ "anthropic") : findAnthropic ps = none :=
  foldl_anthropicStep_stay ps h none

theorem findAnthropic_unique (ps : List ProviderInfo) (a : ProviderInfo)
    (hu : uniqueIds ps) (ha : a ∈ ps) (hid : a.id = "anthropic") :
    findAnthropic ps = some a := by
  induction ps with
  | nil => cases ha
  | cons p rest ih =>
    have hu' : p.id ∉ rest.map (·.id) ∧ uniqueIds rest := by
      simpa [uniqueIds, List.nodup_cons] using hu
    rcases List.mem_cons.mp ha with rfl | ha'
    · have hrest : ∀ q ∈ rest, q.id ≠ "anthropic" := by
        intro q hq hcontra
        exact hu'.1 (hid ▸ hcontra ▸ List.mem_map_of_mem (·.id) hq)
      simp only [findAnthropic, List.foldl_cons, anthropicStep, if_pos hid]
      exact foldl_anthropicStep_stay rest hrest (some a)
    · have hp : p.id ≠ "anthropic" := by
        intro hcontra
        exact hu'.1 (hcontra ▸ hid ▸ List.mem_map_of_mem (·.id) ha')
      simp only [findAnthropic, List.foldl_cons, anthropicStep, if_neg hp]
      exact ih hu'.2 ha'

theorem foldl_anthropicStep_result (ps : List ProviderInfo) :
    ∀ (acc : Option ProviderInfo) (a : ProviderInfo),
      ps.foldl anthropicStep acc = some a →
      (a ∈ ps ∧ a.id = "anthropic") ∨ acc = some a := by
  induction ps with
  | nil => exact fun acc a h => Or.inr h
  | cons p rest ih =>
    intro acc a h
    rcases ih (anthropicStep acc p) a h with h1 | h2
    · exact Or.inl ⟨List.mem_cons_of_mem _ h1.1, h1.2⟩
    · by_cases hp : p.id = "anthropic"
      · left
        have : p = a := by simpa [anthropicStep, if_pos hp] using h2
        exact ⟨this ▸ List.mem_cons_self p rest, this ▸ hp⟩
      · right
        simpa [anthropicStep, if_neg hp] using h2

/-! ## Helper lemmas: the default-pair loop -/

theorem foldl_defaultStep_stay (resp : ProvidersResponse)
    (ps : List ProviderInfo) (p : ProviderInfo) (m : ModelInfo) :
    ps.foldl (defaultStep resp) (some p, some m) = (some p, some m) := by
  induction ps with
  | nil => rfl
  | cons q rest ih => simpa [defaultStep] using ih

theorem lastOr_cons (p : ProviderInfo) (rest : List ProviderInfo)
    (x : Option ProviderInfo) :
    lastOr (p :: rest) x = lastOr rest (some p) := by
  cases rest with
  | nil => rfl
  | cons q rest' =>
    obtain ⟨z, hz⟩ : ∃ z, (q :: rest').getLast? = some z := by
      cases hz : (q :: rest').getLast? with
      | some z => exact ⟨z, rfl⟩
      | none => exact absurd (List.getLast?_eq_none_iff.mp hz) (by simp)
    simp [lastOr, List.getLast?_cons_cons, hz]

theorem foldl_defaultStep_from_none (resp : ProvidersResponse) :
    ∀ (ps : List ProviderInfo) (x : Option ProviderInfo),
      (∀ q, ps.find? (fun r => (getDefaultModel resp r).isSome) = some q →
        ps.foldl (defaultStep resp) (x, none) =
          (some q, getDefaultModel resp q)) ∧
      (ps.find? (fun r => (getDefaultModel resp r).isSome) = none →
        ps.foldl (defaultStep resp) (x, none) = (lastOr ps x, none)) := by
  intro ps
  induction ps with
  | nil =>
    intro x
    constructor
    · intro q h
      exact absurd h (by simp)
    · intro _
      rfl
  | cons p rest ih =>
    intro x
    have hstep : defaultStep resp (x, none) p =
        (some p, getDefaultModel resp p) := by
      simp [defaultStep]
    constructor
    · intro q hq
      by_cases hp : (getDefaultModel resp p).isSome
      · rw [@List.find?_cons_of_pos _
            (fun r => (getDefaultModel resp r).isSome) p rest hp] at hq
        obtain ⟨m, hm⟩ := Option.isSome_iff_exists.mp hp
        have hpq : p = q := by simpa using hq
        subst hpq
        simp only [List.foldl_cons, hstep, hm]
        exact hm ▸ foldl_defaultStep_stay resp rest p m
      · rw [@List.find?_cons_of_neg _
            (fun r => (getDefaultModel resp r).isSome) p rest hp] at hq
        have hnone : getDefaultModel resp p = none :=
          Option.not_isSome_iff_eq_none.mp hp
        simp only [List.foldl_cons, hstep, hnone]
        exact (ih (some p)).1 q hq
    · intro hq
      by_cases hp : (getDefaultModel resp p).isSome
      · rw [@List.find?_cons_of_pos _
            (fun r => (getDefaultModel resp r).isSome) p rest hp] at hq
        cases hq
      · rw [@List.find?_cons_of_neg _
            (fun r => (getDefaultModel resp r).isSome) p rest hp] at hq
        have hnone : getDefaultModel resp p = none :=
          Option.not_isSome_iff_eq_none.mp hp
        simp only [List.foldl_cons, hstep, hnone, lastOr_cons]
        exact (ih (some p)).2 hq

theorem defaultPair_anthropic (resp : ProvidersResponse) (a : ProviderInfo)
    (hu : uniqueIds resp.providers) (ha : a ∈ resp.providers)
    (hid : a.id = "anthropic") (hm : (getDefaultModel resp a).isSome) :
    defaultPair resp = (some a, getDefaultModel resp a) := by
  obtain ⟨m, hm'⟩ := Option.isSome_iff_exists.mp hm
  have hseed : seedDefault resp = (some a, getDefaultModel resp a) := by
    simp only [seedDefault, findAnthropic_unique resp.providers a hu ha hid]
  unfold defaultPair defaultLoop
  rw [hseed, hm']
  exact hm' ▸ foldl_defaultStep_stay resp resp.providers a m

theorem defaultPair_no_anthropic (resp : ProvidersResponse)
    (hna : ∀ p ∈ resp.providers, p.id ≠ "anthropic") :
    defaultPair resp =
      match resp.providers.find?
          (fun r => (getDefaultModel resp r).isSome) with
      | some q => (some q, getDefaultModel resp q)
      | none => (lastOr resp.providers none, none) := by
  unfold defaultPair defaultLoop seedDefault
  rw [findAnthropic_of_absent resp.providers hna]
  cases hfind : resp.providers.find?
      (fun r => (getDefaultModel resp r).isSome) with
  | some q => exact (foldl_defaultStep_from_none resp resp.providers none).1 q hfind
  | none => exact (foldl_defaultStep_from_none resp resp.providers none).2 hfind

theorem defaultPair_snd_none (resp : ProvidersResponse)
    (hall : ∀ p ∈ resp.providers, getDefaultModel resp p = none) :
    (defaultPair resp).2 = none := by
  have hfind : resp.providers.find?
      (fun r => (getDefaultModel resp r).isSome) = none := by
    rw [List.find?_eq_none]
    intro p hp
    simp [hall p hp]
  cases hfa : findAnthropic resp.providers with
  | none =>
    have hseed : seedDefault resp = (none, none) := by
      simp only [seedDefault, hfa]
    have h1 : defaultPair resp = (lastOr resp.providers none, none) := by
      unfold defaultPair defaultLoop
      rw [hseed]
      exact (foldl_defaultStep_from_none resp resp.providers none).2 hfind
    rw [h1]
  | some a =>
    have ha : a ∈ resp.providers ∧ a.id = "anthropic" := by
      rcases foldl_anthropicStep_result resp.providers none a hfa with h | h
      · exact h
      · cases h
    have hseed : seedDefault resp = (some a, none) := by
      simp only [seedDefault, hfa, hall a ha.1]
    have h1 : defaultPair resp = (lastOr resp.providers (some a), none) := by
      unfold defaultPair defaultLoop
      rw [hseed]
      exact (foldl_defaultStep_from_none resp resp.providers (some a)).2 hfind
    rw [h1]

theorem defaultPair_some_of_exists (resp : ProvidersResponse)
    (hex : ∃ p ∈ resp.providers, (getDefaultModel resp p).isSome) :
    ∃ q m, defaultPair resp = (some q, some m) := by
  cases hfa : findAnthropic resp.providers with
  | some a =>
    cases hm : getDefaultModel resp a with
    | some m =>
      have hseed : seedDefault resp = (some a, some m) := by
        simp only [seedDefault, hfa, hm]
      refine ⟨a, m, ?_⟩
      unfold defaultPair defaultLoop
      rw [hseed]
      exact foldl_defaultStep_stay resp resp.providers a m
    | none =>
      have hseed : seedDefault resp = (some a, none) := by
        simp only [seedDefault, hfa, hm]
      cases hfind : resp.providers.find?
          (fun r => (getDefaultModel resp r).isSome) with
      | some q =>
        have hrun := (foldl_defaultStep_from_none resp resp.providers
          (some a)).1 q hfind
        have hq : (getDefaultModel resp q).isSome := by
          simpa using List.find?_some hfind
        obtain ⟨m, hm'⟩ := Option.isSome_iff_exists.mp hq
        refine ⟨q, m, ?_⟩
        unfold defaultPair defaultLoop
        rw [hseed, hrun, hm']
      | none =>
        exfalso
        obtain ⟨p, hp, hps⟩ := hex
        have := List.find?_eq_none.mp hfind p hp
        simp [hps] at this
  | none =>
    have hseed : seedDefault resp = (none, none) := by
      simp only [seedDefault, hfa]
    cases hfind : resp.providers.find?
        (fun r => (getDefaultModel resp r).isSome) with
    | some q =>
      have hrun := (foldl_defaultStep_from_none resp resp.providers none).1
        q hfind
      have hq : (getDefaultModel resp q).isSome := by
        simpa using List.find?_some hfind
      obtain ⟨m, hm'⟩ := Option.isSome_iff_exists.mp hq
      refine ⟨q, m, ?_⟩
      unfold defaultPair defaultLoop
      rw [hseed, hrun, hm']
    | none =>
      exfalso
      obtain ⟨p, hp, hps⟩ := hex
      have := List.find?_eq_none.mp hfind p hp
      simp [hps] at this

/-! ## Helper lemmas: the reconciliation loop -/

theorem foldl_modelStep_isSome (state : State) :
    ∀ (models : List (String × ModelInfo)) (m : ModelInfo),
      (models.foldl (modelStep state) (some m)).isSome := by
  intro models
  induction models with
  | nil => intro m; rfl
  | cons e rest ih =>
    intro m
    simp only [List.foldl_cons, modelStep]
    split
    · exact ih _
    · exact ih m

theorem foldl_modelStep_none (state : State)
    (models : List (String × ModelInfo))
    (h : ∀ e ∈ models, e.2.id ≠ state.model) :
    ∀ cm, models.foldl (modelStep state) cm = cm := by
  induction models with
  | nil => intro cm; rfl
  | cons e rest ih =>
    intro cm
    have he := h e (List.mem_cons_self e rest)
    simp only [List.foldl_cons, modelStep, if_neg he]
    exact ih (fun x hx => h x (List.mem_cons_of_mem _ hx)) cm

theorem foldl_modelStep_result (state : State) :
    ∀ (models : List (String × ModelInfo)) (cm : Option ModelInfo)
      (m : ModelInfo),
      models.foldl (modelStep state) cm = some m →
      (m.id = state.model ∧ ∃ e ∈ models, e.2 = m) ∨ cm = some m := by
  intro models
  induction models with
  | nil => exact fun cm m h => Or.inr h
  | cons e rest ih =>
    intro cm m h
    rcases ih (modelStep state cm e) m h with h1 | h2
    · exact Or.inl ⟨h1.1, by
        obtain ⟨x, hx, hxm⟩ := h1.2
        exact ⟨x, List.mem_cons_of_mem _ hx, hxm⟩⟩
    · by_cases he : e.2.id = state.model
      · left
        have : e.2 = m := by simpa [modelStep, if_pos he] using h2
        exact ⟨this ▸ he, e, List.mem_cons_self e rest, this⟩
      · right
        simpa [modelStep, if_neg he] using h2

theorem foldl_modelStep_exists_isSome (state : State) :
    ∀ (models : List (String × ModelInfo)) (cm : Option ModelInfo),
      (∃ e ∈ models, e.2.id = state.model) →
      (models.foldl (modelStep state) cm).isSome := by
  intro models
  induction models with
  | nil =>
    intro cm h
    obtain ⟨e, he, _⟩ := h
    cases he
  | cons e rest ih =>
    intro cm h
    by_cases he : e.2.id = state.model
    · simp only [List.foldl_cons, modelStep, if_pos he]
      exact foldl_modelStep_isSome state rest e.2
    · simp only [List.foldl_cons, modelStep, if_neg he]
      obtain ⟨e', he', hid'⟩ := h
      rcases List.mem_cons.mp he' with rfl | hrest
      · exact absurd hid' he
      · exact ih cm ⟨e', hrest, hid'⟩

theorem lastModelMatch_isSome (state : State) (p : ProviderInfo)
    (h : ∃ e ∈ p.models, e.2.id = state.model) :
    (lastModelMatch state p).isSome :=
  foldl_modelStep_exists_isSome state p.models none h

theorem foldl_reconcileStep_stay (state : State)
    (ps : List ProviderInfo) (h : ∀ p ∈ ps, p.id ≠ state.provider) :
    ∀ acc, ps.foldl (reconcileStep state) acc = acc := by
  induction ps with
  | nil => intro acc; rfl
  | cons p rest ih =>
    intro acc
    have hp := h p (List.mem_cons_self p rest)
    simp only [List.foldl_cons, reconcileStep, if_neg hp]
    exact ih (fun q hq => h q (List.mem_cons_of_mem _ hq)) acc

theorem reconcile_match (state : State) (ps : List ProviderInfo)
    (p : ProviderInfo) (hu : uniqueIds ps) (hp : p ∈ ps)
    (hid : p.id = state.provider) :
    reconcile state ps = (some p, lastModelMatch state p) := by
  induction ps with
  | nil => cases hp
  | cons q rest ih =>
    have hu' : q.id ∉ rest.map (·.id) ∧ uniqueIds rest := by
      simpa [uniqueIds, List.nodup_cons] using hu
    rcases List.mem_cons.mp hp with rfl | hp'
    · have hrest : ∀ r ∈ rest, r.id ≠ state.provider := by
        intro r hr hcontra
        exact hu'.1 (hid ▸ hcontra ▸ List.mem_map_of_mem (·.id) hr)
      simp only [reconcile, List.foldl_cons, reconcileStep, if_pos hid]
      exact foldl_reconcileStep_stay state rest hrest _
    · have hq : q.id ≠ state.provider := by
        intro hcontra
        exact hu'.1 (hcontra ▸ hid ▸ List.mem_map_of_mem (·.id) hp')
      simp only [reconcile, List.foldl_cons, reconcileStep, if_neg hq]
      exact ih hu'.2 hp'

theorem foldl_reconcileStep_snd_none (state : State) :
    ∀ (ps : List ProviderInfo) (cp : Option ProviderInfo),
      (∀ p ∈ ps, p.id = state.provider →
        ∀ e ∈ p.models, e.2.id ≠ state.model) →
      (ps.foldl (reconcileStep state) (cp, none)).2 = none := by
  intro ps
  induction ps with
  | nil => intro cp _; rfl
  | cons q rest ih =>
    intro cp h
    by_cases hq : q.id = state.provider
    · have hnone : q.models.foldl (modelStep state) none = none :=
        foldl_modelStep_none state q.models
          (h q (List.mem_cons_self q rest) hq) none
      simp only [List.foldl_cons, reconcileStep, if_pos hq, hnone]
      exact ih (some q) (fun p hp => h p (List.mem_cons_of_mem _ hp))
    · simp only [List.foldl_cons, reconcileStep, if_neg hq]
      exact ih cp (fun p hp => h p (List.mem_cons_of_mem _ hp))

/-! ## Helper lemmas: unfolding `InitializeProvider` -/

theorem InitializeProvider_not_empty (state : State)
    (resp : ProvidersResponse) (hne : resp.providers ≠ [])
    (rp : Option ProviderInfo × Option ModelInfo)
    (hrp : rp =
      if (reconcile state resp.providers).1.isNone ||
         (reconcile state resp.providers).2.isNone then
        defaultPair resp
      else reconcile state resp.providers) :
    InitializeProvider state resp =
      (match rp.1, rp.2 with
       | some p, some m => InitResult.msg p m
       | _, _ => InitResult.nilDeref) := by
  subst hrp
  have hempty : resp.providers.isEmpty = false := by
    simpa [List.isEmpty_iff] using hne
  simp only [InitializeProvider, hempty]
  rw [if_neg (by simp : ¬ (false = true))]

/-! ## Helper lemmas: the insertion-sort regime of `sort.Slice` -/

theorem bubbleIns_perm {α : Type} (less : α → α → Bool) (x : α) :
    ∀ rp : List α, List.Perm (bubbleIns less x rp) (x :: rp) := by
  intro rp
  induction rp with
  | nil => exact List.Perm.refl _
  | cons y rp ih =>
    simp only [bubbleIns]
    split
    · exact (ih.cons y).trans (List.Perm.swap x y rp)
    · exact List.Perm.refl _

theorem foldl_bubbleIns_perm {α : Type} (less : α → α → Bool) :
    ∀ (l rp : List α),
      List.Perm (l.foldl (fun acc x => bubbleIns less x acc) rp)
        (l.reverse ++ rp) := by
  intro l
  induction l with
  | nil => intro rp; simp
  | cons x l ih =>
    intro rp
    have h1 := ih (bubbleIns less x rp)
    have h2 : List.Perm (l.reverse ++ bubbleIns less x rp)
        (l.reverse ++ (x :: rp)) :=
      List.Perm.append_left _ (bubbleIns_perm less x rp)
    simp only [List.foldl_cons, List.reverse_cons, List.append_assoc,
      List.singleton_append]
    exact h1.trans h2

theorem insertionSortList_perm {α : Type} (less : α → α → Bool)
    (l : List α) : List.Perm (insertionSortList less l) l := by
  unfold insertionSortList
  have h : List.Perm (l.foldl (fun acc x => bubbleIns less x acc) [])
      l.reverse := by
    simpa using foldl_bubbleIns_perm less l []
  exact (List.reverse_perm _).trans (h.trans (List.reverse_perm l))

theorem pdqsortGo_small {α : Type} [Inhabited α] (less : α → α → Bool)
    (fuel : Nat) (l : List α) (a b limit : Nat) (wb wp : Bool)
    (h : b - a ≤ 12) :
    pdqsortGo less (fuel + 1) l a b limit wb wp =
      insertionSortSeg less l a b := by
  simp only [pdqsortGo]
  rw [if_pos h]

theorem insertionSortSeg_whole {α : Type} (less : α → α → Bool)
    (l : List α) :
    insertionSortSeg less l 0 l.length = insertionSortList less l := by
  simp [insertionSortSeg, List.take_length, List.drop_length]

theorem sortSliceGo_small {α : Type} [Inhabited α] (less : α → α → Bool)
    (l : List α) (h : l.length ≤ 12) :
    sortSliceGo less l = insertionSortList less l := by
  unfold sortSliceGo
  rw [show 2 * l.length + 16 = (2 * l.length + 15) + 1 from by omega]
  rw [pdqsortGo_small less _ l 0 l.length _ true true (by omega)]
  exact insertionSortSeg_whole less l

theorem sessionLess_iff (s t : SessionInfo) :
    sessionLess s t = true ↔ t.timeCreated < s.timeCreated := by
  simp [sessionLess, Int.sub_pos]

theorem bubbleIns_pairwise_idx (x : Nat × SessionInfo) :
    ∀ rp : List (Nat × SessionInfo),
      rp.Pairwise (fun p q => IdxOrdered q p) →
      (∀ q ∈ rp, q.1 < x.1) →
      (bubbleIns sessionLessIdx x rp).Pairwise
        (fun p q => IdxOrdered q p) := by
  intro rp
  induction rp with
  | nil => intro _ _; simp [bubbleIns]
  | cons y rp ih =>
    intro hpw hidx
    rw [List.pairwise_cons] at hpw
    simp only [bubbleIns]
    split
    case isTrue hless =>
      rw [List.pairwise_cons]
      constructor
      · intro z hz
        have hz' : z = x ∨ z ∈ rp := by
          simpa using (bubbleIns_perm sessionLessIdx x rp).mem_iff.mp hz
        rcases hz' with rfl | hz'
        · have : y.2.timeCreated < z.2.timeCreated :=
            (sessionLess_iff z.2 y.2).mp hless
          exact Or.inl this
        · exact hpw.1 z hz'
      · exact ih hpw.2 (fun q hq => hidx q (List.mem_cons_of_mem _ hq))
    case isFalse hge =>
      have hle : x.2.timeCreated ≤ y.2.timeCreated := by
        have : ¬ (y.2.timeCreated < x.2.timeCreated) := by
          intro hc
          exact hge ((sessionLess_iff x.2 y.2).mpr hc)
        omega
      rw [List.pairwise_cons]
      constructor
      · intro z hz
        rcases List.mem_cons.mp hz with rfl | hz'
        · rcases lt_or_eq_of_le hle with hlt | heq
          · exact Or.inl hlt
          · exact Or.inr ⟨heq, hidx z (List.mem_cons_self z rp)⟩
        · have hzy := hpw.1 z hz'
          have hzx : z.1 < x.1 := hidx z (List.mem_cons_of_mem _ hz')
          rcases hzy with hlt | ⟨heq, _⟩
          · exact Or.inl (lt_of_le_of_lt hle hlt)
          · rcases lt_or_eq_of_le hle with hlt' | heq'
            · exact Or.inl (heq ▸ hlt')
            · exact Or.inr ⟨heq'.trans heq, hzx⟩
      · exact List.pairwise_cons.mpr hpw

theorem enumFold_invariant :
    ∀ (l : List SessionInfo) (n : Nat) (rp : List (Nat × SessionInfo)),
      rp.Pairwise (fun p q => IdxOrdered q p) →
      (∀ q ∈ rp, q.1 < n) →
      ((List.enumFrom n l).foldl
          (fun acc x => bubbleIns sessionLessIdx x acc) rp).Pairwise
        (fun p q => IdxOrdered q p) ∧
      ∀ q ∈ (List.enumFrom n l).foldl
          (fun acc x => bubbleIns sessionLessIdx x acc) rp,
        q.1 < n + l.length := by
  intro l
  induction l with
  | nil =>
    intro n rp h1 h2
    exact ⟨h1, by simpa using h2⟩
  | cons s l ih =>
    intro n rp h1 h2
    rw [List.enumFrom_cons]
    simp only [List.foldl_cons]
    have h1' := bubbleIns_pairwise_idx (n, s) rp h1 h2
    have h2' : ∀ q ∈ bubbleIns sessionLessIdx (n, s) rp, q.1 < n + 1 := by
      intro q hq
      have hq2 : q = (n, s) ∨ q ∈ rp := by
        simpa using (bubbleIns_perm sessionLessIdx (n, s) rp).mem_iff.mp hq
      rcases hq2 with rfl | hq'
      · simp
      · exact Nat.lt_succ_of_lt (h2 q hq')
    have hmain := ih (n + 1) _ h1' h2'
    refine ⟨hmain.1, fun q hq => ?_⟩
    have := hmain.2 q hq
    simpa [List.length_cons] using by omega

theorem bubbleIns_map_snd (x : Nat × SessionInfo) :
    ∀ rp : List (Nat × SessionInfo),
      (bubbleIns sessionLessIdx x rp).map Prod.snd =
        bubbleIns sessionLess x.2 (rp.map Prod.snd) := by
  intro rp
  induction rp with
  | nil => rfl
  | cons y rp ih =>
    by_cases h : sessionLess x.2 y.2 = true
    · simp [bubbleIns, sessionLessIdx, h, ih]
    · simp [bubbleIns, sessionLessIdx, h]

theorem enumFold_map_snd :
    ∀ (l : List SessionInfo) (n : Nat) (rp : List (Nat × SessionInfo)),
      ((List.enumFrom n l).foldl
          (fun acc x => bubbleIns sessionLessIdx x acc) rp).map Prod.snd =
        l.foldl (fun acc x => bubbleIns sessionLess x acc)
          (rp.map Prod.snd) := by
  intro l
  induction l with
  | nil => intro n rp; rfl
  | cons s l ih =>
    intro n rp
    rw [List.enumFrom_cons]
    simp only [List.foldl_cons]
    rw [ih, bubbleIns_map_snd]

theorem sortIdxRun_map_snd (l : List SessionInfo) :
    (sortIdxRun l).map Prod.snd = insertionSortList sessionLess l := by
  unfold sortIdxRun insertionSortList
  rw [List.map_reverse]
  rw [show l.enum = List.enumFrom 0 l from rfl, enumFold_map_snd]
  rfl

theorem sortIdxRun_pairwise (l : List SessionInfo) :
    (sortIdxRun l).Pairwise IdxOrdered := by
  unfold sortIdxRun insertionSortList
  rw [List.pairwise_reverse]
  exact (enumFold_invariant l 0 [] (by simp) (by simp)).1

theorem insertionSortList_sorted (l : List SessionInfo) :
    (insertionSortList sessionLess l).Pairwise
      (fun s t => t.timeCreated ≤ s.timeCreated) := by
  rw [← sortIdxRun_map_snd]
  refine List.Pairwise.map Prod.snd ?_ (sortIdxRun_pairwise l)
  intro p q hpq
  rcases hpq with hlt | ⟨heq, _⟩
  · exact le_of_lt hlt
  · exact le_of_eq heq

/-! ## Claims -/

/-- C1, counterexample: the fetch `c1resp` contains a provider with id
"anthropic" (in first position, with an empty model map and no defaults
entry), yet resolution selects provider "zeta" as the default, and the
emitted message carries "zeta": the claim's unconditional "regardless of
its position in the list" fails when anthropic's default model resolves to
nil, because the provider loop then overwrites the seeded default. -/
theorem C1_counterexample :
    (c1resp.providers.map (·.id)).contains "anthropic" = true ∧
    (defaultPair c1resp).1 = some ⟨"zeta", [("m1", ⟨"m1", "M1"⟩)]⟩ ∧
    (defaultPair c1resp).1 ≠ some ⟨"anthropic", []⟩ ∧
    InitializeProvider ⟨"", ""⟩ c1resp =
      .msg ⟨"zeta", [("m1", ⟨"m1", "M1"⟩)]⟩ ⟨"m1", "M1"⟩ := by
  decide

/-- C1 (amended): for every fetched provider list with unique ids that
contains a provider with id "anthropic" whose default-model resolution
yields a model (a non-empty model map or a server defaults entry),
resolution seeds and keeps that provider as the default regardless of its
position, and its default model comes from the server defaults map whenever
an entry for "anthropic" exists. -/
theorem C1_amended (resp : ProvidersResponse) (a : ProviderInfo)
    (hu : uniqueIds resp.providers) (ha : a ∈ resp.providers)
    (hid : a.id = "anthropic") (hm : (getDefaultModel resp a).isSome) :
    defaultPair resp = (some a, getDefaultModel resp a) ∧
    ∀ mid, mapLookup resp.defaultMap "anthropic" = some mid →
      getDefaultModel resp a = some (mapIndex a.models mid) := by
  refine ⟨defaultPair_anthropic resp a hu ha hid hm, ?_⟩
  intro mid hmid
  unfold getDefaultModel
  rw [hid, hmid]

/-- C1 witness: the spec's §8 scenario instantiates the amended claim. -/
theorem C1_witness :
    defaultPair scenarioResp =
      (some ⟨"anthropic", [("claude-3", ⟨"claude-3", "Claude 3"⟩)]⟩,
       getDefaultModel scenarioResp
         ⟨"anthropic", [("claude-3", ⟨"claude-3", "Claude 3"⟩)]⟩) :=
  (C1_amended scenarioResp
    ⟨"anthropic", [("claude-3", ⟨"claude-3", "Claude 3"⟩)]⟩
    (by decide) (by decide) (by decide) (by decide)).1

/-- C2: over a non-empty fetch with unique provider ids, when some fetched
provider has the persisted provider id and one of its models has the
persisted model id, `InitializeProvider` returns exactly that provider with
a model carrying the persisted model id; otherwise it dereferences the
computed preliminary default pair: when that pair is complete it is
returned unchanged (never mixed with a persisted component), and when its
model half is nil the nil dereference is reached instead. -/
theorem C2_holds (state : State) (resp : ProvidersResponse)
    (hu : uniqueIds resp.providers) (hne : resp.providers ≠ []) :
    (∀ p, p ∈ resp.providers → p.id = state.provider →
      (∃ e ∈ p.models, e.2.id = state.model) →
      ∃ m, InitializeProvider state resp = .msg p m ∧
        m.id = state.model ∧ ∃ e ∈ p.models, e.2 = m) ∧
    (¬ persistedMatch state resp.providers →
      (∀ dp dm, defaultPair resp = (some dp, some dm) →
        InitializeProvider state resp = .msg dp dm) ∧
      ((defaultPair resp).2 = none →
        InitializeProvider state resp = .nilDeref)) := by
  constructor
  · intro p hp hpid hex
    have hrec := reconcile_match state resp.providers p hu hp hpid
    obtain ⟨m, hm⟩ :=
      Option.isSome_iff_exists.mp (lastModelMatch_isSome state p hex)
    have hminfo : m.id = state.model ∧ ∃ e ∈ p.models, e.2 = m := by
      rcases foldl_modelStep_result state p.models none m hm with h | h
      · exact h
      · cases h
    refine ⟨m, ?_, hminfo.1, hminfo.2⟩
    rw [InitializeProvider_not_empty state resp hne _ rfl, hrec, hm]
    rfl
  · intro hnm
    have hr2 : (reconcile state resp.providers).2 = none := by
      apply foldl_reconcileStep_snd_none
      intro p hp hpid e he hcontra
      exact hnm ⟨p, hp, hpid, e, he, hcontra⟩
    constructor
    · intro dp dm hdp
      rw [InitializeProvider_not_empty state resp hne _ rfl]
      simp only [hr2, Option.isNone_none, Bool.or_true]
      rw [if_pos trivial, hdp]
    · intro hdm
      rw [InitializeProvider_not_empty state resp hne _ rfl]
      simp only [hr2, Option.isNone_none, Bool.or_true]
      rw [if_pos trivial]
      cases h1 : (defaultPair resp).1 <;> rw [hdm]

/-- C2 witness: a persisted pair ("openai", "gpt") found in the §8 fetch is
returned exactly. -/
theorem C2_witness :
    ∃ m, InitializeProvider ⟨"openai", "gpt"⟩ scenarioResp =
      .msg ⟨"openai", [("gpt", ⟨"gpt", "GPT"⟩)]⟩ m ∧
      m.id = "gpt" ∧ ∃ e ∈ [("gpt", ⟨"gpt", "GPT"⟩)], e.2 = m :=
  (C2_holds ⟨"openai", "gpt"⟩ scenarioResp (by decide) (by decide)).1
    ⟨"openai", [("gpt", ⟨"gpt", "GPT"⟩)]⟩ (by decide) (by decide) (by decide)

/-- C3, counterexample: a non-empty fetch without "anthropic" whose first
provider has an empty model map and no defaults entry: resolution selects
the second provider "beta", not the first provider "alpha", refuting the
claim that the first provider in returned order is always selected. -/
theorem C3_counterexample :
    c3resp.providers ≠ [] ∧
    (∀ p ∈ c3resp.providers, p.id ≠ "anthropic") ∧
    c3resp.providers.head? = some ⟨"alpha", []⟩ ∧
    (defaultPair c3resp).1 = some ⟨"beta", [("m1", ⟨"m1", "M1"⟩)]⟩ ∧
    (defaultPair c3resp).1 ≠ some ⟨"alpha", []⟩ ∧
    InitializeProvider ⟨"", ""⟩ c3resp =
      .msg ⟨"beta", [("m1", ⟨"m1", "M1"⟩)]⟩ ⟨"m1", "M1"⟩ := by
  decide

/-- C3 (amended): for a non-empty fetch without "anthropic", resolution
selects the first provider in returned order whose default-model resolution
yields a model — in particular the first provider of the list whenever its
own default model resolves; if no provider's default model resolves, the
last provider is selected with a nil model. -/
theorem C3_amended (resp : ProvidersResponse)
    (hna : ∀ p ∈ resp.providers, p.id ≠ "anthropic") :
    (∀ q, resp.providers.find?
        (fun r => (getDefaultModel resp r).isSome) = some q →
      defaultPair resp = (some q, getDefaultModel resp q)) ∧
    ((∀ p ∈ resp.providers, getDefaultModel resp p = none) →
      defaultPair resp = (lastOr resp.providers none, none)) ∧
    (∀ p₀, resp.providers.head? = some p₀ →
      (getDefaultModel resp p₀).isSome →
      defaultPair resp = (some p₀, getDefaultModel resp p₀)) := by
  have hchar := defaultPair_no_anthropic resp hna
  refine ⟨?_, ?_, ?_⟩
  · intro q hq
    rw [hchar, hq]
  · intro hall
    have hfind : resp.providers.find?
        (fun r => (getDefaultModel resp r).isSome) = none := by
      rw [List.find?_eq_none]
      intro p hp
      simp [hall p hp]
    rw [hchar, hfind]
  · intro p₀ hp₀ hsome
    obtain ⟨p, rest, hcons⟩ : ∃ p rest, resp.providers = p :: rest := by
      cases hl : resp.providers with
      | nil => rw [hl] at hp₀; cases hp₀
      | cons p rest => exact ⟨p, rest, rfl⟩
    have hpp : p = p₀ := by
      rw [hcons] at hp₀
      simpa using hp₀
    subst hpp
    have hfind : resp.providers.find?
        (fun r => (getDefaultModel resp r).isSome) = some p := by
      rw [hcons]
      exact @List.find?_cons_of_pos _
        (fun r => (getDefaultModel resp r).isSome) p rest hsome
    rw [hchar, hfind]

/-- C3 witness: without "anthropic", a first provider with a model is
selected first. -/
theorem C3_witness :
    defaultPair ⟨[⟨"x1", [("m", ⟨"m", "M"⟩)]⟩, ⟨"x2", []⟩], []⟩ =
      (some ⟨"x1", [("m", ⟨"m", "M"⟩)]⟩,
       getDefaultModel ⟨[⟨"x1", [("m", ⟨"m", "M"⟩)]⟩, ⟨"x2", []⟩], []⟩
         ⟨"x1", [("m", ⟨"m", "M"⟩)]⟩) :=
  (C3_amended ⟨[⟨"x1", [("m", ⟨"m", "M"⟩)]⟩, ⟨"x2", []⟩], []⟩
    (by decide)).2.2 ⟨"x1", [("m", ⟨"m", "M"⟩)]⟩ (by decide) (by decide)

/-- C4, counterexample: `ListSessions` on 13 fetched sessions (beyond the
insertion-sort cutoff of Go's `sort.Slice`) returns them descending, but
the equal-timestamp sessions "e" and "f" come out in reversed relative
order: the sort is not stable. -/
theorem C4_counterexample :
    ListSessions ⟨none, 200, some c4in⟩ = .ok c4out ∧
    c4in.indexOf ⟨"e", 5⟩ < c4in.indexOf ⟨"f", 5⟩ ∧
    c4out.indexOf ⟨"f", 5⟩ < c4out.indexOf ⟨"e", 5⟩ ∧
    (⟨"e", 5⟩ : SessionInfo).timeCreated =
      (⟨"f", 5⟩ : SessionInfo).timeCreated := by
  refine ⟨?_, by decide, by decide, rfl⟩
  rfl

/-- C4 (amended): a successful `ListSessions` response with an absent body
yields an empty list and no error; and for fetches of at most 12 sessions
(where `sort.Slice` runs plain insertion sort) the output is a permutation
of the input sorted descending by creation time, and — witnessed by the
index-tagged run, whose projection is the output — equal-timestamp sessions
keep their input order.  For larger fetches descending order still holds
for the comparator but tie order is unspecified (see the counterexample).
-/
theorem C4_amended :
    (∀ resp : ListSessionsResponse, resp.err = none → resp.statusCode = 200 →
      resp.json200 = none → ListSessions resp = .ok []) ∧
    (∀ l : List SessionInfo, l.length ≤ 12 →
      List.Perm (sortSliceGo sessionLess l) l ∧
      (sortSliceGo sessionLess l).Pairwise
        (fun s t => t.timeCreated ≤ s.timeCreated) ∧
      (sortIdxRun l).map Prod.snd = sortSliceGo sessionLess l ∧
      (sortIdxRun l).Pairwise IdxOrdered) := by
  constructor
  · intro resp h1 h2 h3
    simp [ListSessions, h1, h2, h3]
  · intro l hl
    have hs := sortSliceGo_small sessionLess l hl
    refine ⟨hs ▸ insertionSortList_perm sessionLess l,
      hs ▸ insertionSortList_sorted l, ?_, sortIdxRun_pairwise l⟩
    rw [hs, sortIdxRun_map_snd]

/-- C4 witness: the empty-body case and the spec's `[5,1,9] → [9,5,1]`
scenario instantiate the amended claim. -/
theorem C4_witness :
    ListSessions ⟨none, 200, none⟩ = .ok [] ∧
    List.Perm (sortSliceGo sessionLess [⟨"a", 5⟩, ⟨"b", 1⟩, ⟨"c", 9⟩])
      [⟨"a", 5⟩, ⟨"b", 1⟩, ⟨"c", 9⟩] ∧
    (sortSliceGo sessionLess [⟨"a", 5⟩, ⟨"b", 1⟩, ⟨"c", 9⟩]).Pairwise
      (fun s t => t.timeCreated ≤ s.timeCreated) :=
  ⟨C4_amended.1 ⟨none, 200, none⟩ rfl rfl rfl,
   (C4_amended.2 [⟨"a", 5⟩, ⟨"b", 1⟩, ⟨"c", 9⟩] (by decide)).1,
   (C4_amended.2 [⟨"a", 5⟩, ⟨"b", 1⟩, ⟨"c", 9⟩] (by decide)).2.1⟩

/-- C5: when the active session id is empty and the synchronous session
creation fails (transport error or non-success status), `SendChatMessage`
returns the app unchanged with a single error-toast command: no optimistic
message is appended and no network send is dispatched. -/
theorem C5_holds (a : App) (createResp : CreateSessionResponse)
    (nowNanos nowUnix : Int) (text : String)
    (attachments : List Attachment) (hid : a.session.id = "") (e : String)
    (hfail : CreateSession createResp = .error e) :
    SendChatMessage a createResp nowNanos nowUnix text attachments =
      ⟨a, [.errorToast e]⟩ := by
  simp [SendChatMessage, hid, hfail]

/-- C5 witness: a 500 status from session creation aborts the send with a
toast and leaves the app untouched. -/
theorem C5_witness :
    SendChatMessage ⟨⟨"", 0⟩, [], none, none, ⟨"", ""⟩⟩ wCreateFail 1 2
      "hi" [] =
      ⟨⟨⟨"", 0⟩, [], none, none, ⟨"", ""⟩⟩,
       [.errorToast "failed to create session: 500"]⟩ :=
  C5_holds ⟨⟨"", 0⟩, [], none, none, ⟨"", ""⟩⟩ wCreateFail 1 2 "hi" []
    rfl "failed to create session: 500" rfl

/-- C6: `IsBusy` is true iff the message sequence is non-empty and the last
message's completion timestamp is unset; it is false on an empty sequence;
and it is true immediately after any `SendChatMessage` that is not aborted
by a failed lazy session creation, since the appended optimistic message
has no completion time. -/
theorem C6_holds (a : App) :
    (IsBusy a = true ↔ a.messages ≠ [] ∧
      ∃ m, a.messages.getLast? = some m ∧
        m.metadata.timeCompleted = none) ∧
    (a.messages = [] → IsBusy a = false) ∧
    (∀ (createResp : CreateSessionResponse) (nowNanos nowUnix : Int)
      (text : String) (attachments : List Attachment),
      (a.session.id = "" → ∃ s, CreateSession createResp = .ok s) →
      IsBusy (SendChatMessage a createResp nowNanos nowUnix text
        attachments).app = true) := by
  refine ⟨?_, ?_, ?_⟩
  · cases h : a.messages.getLast? with
    | none =>
      have hl : a.messages = [] := List.getLast?_eq_none_iff.mp h
      simp [IsBusy, h, hl]
    | some m =>
      have hl : a.messages ≠ [] := by
        intro hc
        rw [hc] at h
        cases h
      simp [IsBusy, h, hl, Option.isNone_iff_eq_none]
  · intro h
    simp [IsBusy, List.getLast?_eq_none_iff.mpr h]
  · intro createResp nowNanos nowUnix text attachments hcreate
    by_cases hsid : a.session.id = ""
    · obtain ⟨s, hs⟩ := hcreate hsid
      simp [SendChatMessage, hsid, hs, IsBusy, List.getLast?_concat]
    · simp [SendChatMessage, hsid, IsBusy, List.getLast?_concat]

/-- C6 witness: busy right after a send from an app with an active session.
-/
theorem C6_witness :
    IsBusy (SendChatMessage wApp wCreateOk 7 3 "hi" []).app = true :=
  (C6_holds wApp).2.2 wCreateOk 7 3 "hi" []
    (fun h => absurd h (by decide))

/-- C7: `SendChatMessage "hi" []` from an empty session id creates exactly
one session and then appends exactly one optimistic message, in that order
(session-selected command, then optimistic-message-added, then the network
dispatch); the message has role "user", a single text part "hi", the id
"optimistic-" followed by the nanosecond timestamp, creation time now, and
no completion time. -/
theorem C7_holds (a : App) (createResp : CreateSessionResponse)
    (nowNanos nowUnix : Int) (s : SessionInfo) (hid : a.session.id = "")
    (hok : CreateSession createResp = .ok s) :
    ∃ msg : MessageInfo,
      msg.id = "optimistic-" ++ toString nowNanos ∧
      msg.role = "user" ∧
      msg.parts = [.text { type := "text", text := "hi" }] ∧
      msg.metadata.timeCompleted = none ∧
      msg.metadata.timeCreated = nowUnix ∧
      msg.metadata.sessionID = s.id ∧
      (SendChatMessage a createResp nowNanos nowUnix "hi" []).app.session
        = s ∧
      (SendChatMessage a createResp nowNanos nowUnix "hi" []).app.messages
        = a.messages ++ [msg] ∧
      (SendChatMessage a createResp nowNanos nowUnix "hi" []).cmds =
        [.sessionSelected s, .optimisticMessageAdded msg,
         .dispatchChat (chatBody
           (SendChatMessage a createResp nowNanos nowUnix "hi" []).app
           [.text { type := "text", text := "hi" }])] := by
  refine ⟨{ id := "optimistic-" ++ toString nowNanos
            role := "user"
            parts := [.text { type := "text", text := "hi" }]
            metadata := { sessionID := s.id, timeCreated := nowUnix,
                          timeCompleted := none } },
    rfl, rfl, rfl, rfl, rfl, rfl, ?_, ?_, ?_⟩ <;>
    simp [SendChatMessage, hid, hok]

/-- C7 witness: the scenario run from a concrete empty-session app. -/
theorem C7_witness :
    ∃ msg : MessageInfo,
      msg.id = "optimistic-" ++ toString (7 : Int) ∧
      msg.role = "user" ∧
      msg.parts = [.text { type := "text", text := "hi" }] ∧
      msg.metadata.timeCompleted = none ∧
      msg.metadata.timeCreated = 3 ∧
      msg.metadata.sessionID = (⟨"sess-new", 42⟩ : SessionInfo).id ∧
      (SendChatMessage ⟨⟨"", 0⟩, [], none, none, ⟨"", ""⟩⟩ wCreateOk 7 3
        "hi" []).app.session = ⟨"sess-new", 42⟩ ∧
      (SendChatMessage ⟨⟨"", 0⟩, [], none, none, ⟨"", ""⟩⟩ wCreateOk 7 3
        "hi" []).app.messages = [] ++ [msg] ∧
      (SendChatMessage ⟨⟨"", 0⟩, [], none, none, ⟨"", ""⟩⟩ wCreateOk 7 3
        "hi" []).cmds =
        [.sessionSelected ⟨"sess-new", 42⟩, .optimisticMessageAdded msg,
         .dispatchChat (chatBody
           (SendChatMessage ⟨⟨"", 0⟩, [], none, none, ⟨"", ""⟩⟩ wCreateOk
             7 3 "hi" []).app
           [.text { type := "text", text := "hi" }])] :=
  C7_holds ⟨⟨"", 0⟩, [], none, none, ⟨"", ""⟩⟩ wCreateOk 7 3
    ⟨"sess-new", 42⟩ rfl rfl

/-- C8, counterexample: a successful fetch with an empty provider list
makes the command log and return nil — it completes delivering no message
at all, the very same outcome as a transport failure or a non-200 status,
refuting the claim that it "yields a distinct typed failure rather than
completing without a result" (no typed failure value exists anywhere on
this path; spec §7 itself calls the condition a silent no-op). -/
theorem C8_counterexample :
    InitializeProviderCmd ⟨"", ""⟩ ⟨none, 200, ⟨[], []⟩⟩ = .nilMsg ∧
    InitializeProviderCmd ⟨"", ""⟩
      ⟨some "dial tcp: connection refused", 0, scenarioResp⟩ = .nilMsg ∧
    InitializeProviderCmd ⟨"", ""⟩ ⟨none, 500, scenarioResp⟩ = .nilMsg ∧
    InitializeProviderCmd ⟨"", ""⟩ ⟨none, 200, ⟨[], []⟩⟩ =
      InitializeProviderCmd ⟨"", ""⟩
        ⟨some "dial tcp: connection refused", 0, scenarioResp⟩ := by
  decide

/-- C8 (amended): when the provider-list fetch succeeds but the returned
list is empty, `InitializeProvider` logs "No providers configured" and
returns nil: the command completes without emitting any message (in
particular never a `ModelSelectedMsg`), and that nil return is identical
to the outcome of every transport-error and non-200 fetch — there is no
distinct typed failure. -/
theorem C8_amended (state : State) (resp : ProvidersResponse)
    (hempty : resp.providers = []) :
    InitializeProvider state resp = .nilMsg ∧
    (∀ p m, InitializeProvider state resp ≠ .msg p m) ∧
    (∀ (e : String) (status : Nat) (body : ProvidersResponse),
      InitializeProviderCmd state ⟨some e, status, body⟩ =
        InitializeProvider state resp) ∧
    (∀ (status : Nat) (body : ProvidersResponse), status ≠ 200 →
      InitializeProviderCmd state ⟨none, status, body⟩ =
        InitializeProvider state resp) := by
  have h : InitializeProvider state resp = .nilMsg := by
    simp [InitializeProvider, hempty]
  refine ⟨h, fun p m hc => ?_, fun e status body => ?_, fun status body hs => ?_⟩
  · rw [h] at hc
    cases hc
  · rw [h]
    rfl
  · rw [h]
    simp [InitializeProviderCmd, hs]

/-- C8 witness: the empty fetch instantiates the amended claim. -/
theorem C8_witness :
    InitializeProvider ⟨"", ""⟩ ⟨[], []⟩ = .nilMsg ∧
    (∀ p m, InitializeProvider ⟨"", ""⟩ ⟨[], []⟩ ≠ .msg p m) ∧
    (∀ (e : String) (status : Nat) (body : ProvidersResponse),
      InitializeProviderCmd ⟨"", ""⟩ ⟨some e, status, body⟩ =
        InitializeProvider ⟨"", ""⟩ ⟨[], []⟩) ∧
    (∀ (status : Nat) (body : ProvidersResponse), status ≠ 200 →
      InitializeProviderCmd ⟨"", ""⟩ ⟨none, status, body⟩ =
        InitializeProvider ⟨"", ""⟩ ⟨[], []⟩) :=
  C8_amended ⟨"", ""⟩ ⟨[], []⟩ rfl

/-- C9, counterexample: two sends with equal text but different attachment
lists produce identical results — and in particular identical dispatched
payloads — refuting the claim that the dispatched request depends on the
attachments. -/
theorem C9_counterexample :
    ([wAttachment] : List Attachment) ≠ [] ∧
    SendChatMessage wApp wCreateOk 1 2 "hello" [wAttachment] =
      SendChatMessage wApp wCreateOk 1 2 "hello" [] ∧
    (SendChatMessage wApp wCreateOk 1 2 "hello" [wAttachment]).cmds =
      (SendChatMessage wApp wCreateOk 1 2 "hello" []).cmds :=
  ⟨by decide, rfl, rfl⟩

/-- C9 (amended): the attachments argument is ignored by
`SendChatMessage`: for any app, creation response, timestamps and text, any
two attachment lists yield the same updated app and the same commands,
hence the same dispatched payload; the outgoing request depends only on the
text and the app state. -/
theorem C9_amended (a : App) (createResp : CreateSessionResponse)
    (nowNanos nowUnix : Int) (text : String)
    (att1 att2 : List Attachment) :
    SendChatMessage a createResp nowNanos nowUnix text att1 =
      SendChatMessage a createResp nowNanos nowUnix text att2 := rfl

/-- C10: the final dereference of `InitializeProvider` is unguarded: for
every non-empty fetch in which every provider has an empty model map and no
defaults entry, the resolved default model stays nil and the nil
dereference is reached; conversely, whenever some fetched provider's
default model resolves, the dereference is safe and a `ModelSelectedMsg`
is produced. -/
theorem C10_holds (state : State) (resp : ProvidersResponse) :
    (resp.providers ≠ [] →
      (∀ p ∈ resp.providers, p.models = [] ∧
        mapLookup resp.defaultMap p.id = none) →
      InitializeProvider state resp = .nilDeref) ∧
    ((∃ p ∈ resp.providers, (getDefaultModel resp p).isSome) →
      ∃ q m, InitializeProvider state resp = .msg q m) := by
  constructor
  · intro hne hall
    have hgdm : ∀ p ∈ resp.providers, getDefaultModel resp p = none := by
      intro p hp
      unfold getDefaultModel
      rw [(hall p hp).2, (hall p hp).1]
      rfl
    have hd2 := defaultPair_snd_none resp hgdm
    have hr2 : (reconcile state resp.providers).2 = none := by
      apply foldl_reconcileStep_snd_none
      intro p hp _ e he
      rw [(hall p hp).1] at he
      cases he
    rw [InitializeProvider_not_empty state resp hne _ rfl]
    simp only [hr2, Option.isNone_none, Bool.or_true]
    rw [if_pos trivial]
    cases h1 : (defaultPair resp).1 <;> rw [hd2]
  · intro hex
    obtain ⟨q, m, hqm⟩ := defaultPair_some_of_exists resp hex
    have hne : resp.providers ≠ [] := by
      obtain ⟨p, hp, _⟩ := hex
      intro hcontra
      rw [hcontra] at hp
      cases hp
    rw [InitializeProvider_not_empty state resp hne _ rfl]
    rcases hr : reconcile state resp.providers with ⟨cp, cm⟩
    cases cp with
    | none =>
      refine ⟨q, m, ?_⟩
      simp only [Option.isNone_none, Bool.true_or]
      rw [if_pos trivial, hqm]
    | some p =>
      cases cm with
      | none =>
        refine ⟨q, m, ?_⟩
        simp only [Option.isNone_none, Option.isNone_some, Bool.or_true]
        rw [if_pos trivial, hqm]
      | some m' =>
        refine ⟨p, m', ?_⟩
        simp only [Option.isNone_some, Bool.or_self]
        rw [if_neg (by simp)]

/-- C10 witness: two empty-model providers crash the dereference; the C1
counterexample fetch resolves safely. -/
theorem C10_witness :
    InitializeProvider ⟨"", ""⟩ ⟨[⟨"p1", []⟩, ⟨"p2", []⟩], []⟩ =
      .nilDeref ∧
    ∃ q m, InitializeProvider ⟨"", ""⟩ c1resp = .msg q m :=
  ⟨(C10_holds ⟨"", ""⟩ ⟨[⟨"p1", []⟩, ⟨"p2", []⟩], []⟩).1 (by decide)
      (by decide),
   (C10_holds ⟨"", ""⟩ c1resp).2 (by decide)⟩

end Opencode

-- sanity checks (spec §8 scenario: providers [openai, anthropic],
-- defaults {anthropic: claude-3} resolves to (anthropic, claude-3))
example :
    Opencode.InitializeProvider ⟨"", ""⟩
      ⟨[⟨"openai", [("gpt", ⟨"gpt", "GPT"⟩)]⟩,
        ⟨"anthropic", [("claude-3", ⟨"claude-3", "Claude 3"⟩)]⟩],
       [("anthropic", "claude-3")]⟩ =
      .msg ⟨"anthropic", [("claude-3", ⟨"claude-3", "Claude 3"⟩)]⟩
        ⟨"claude-3", "Claude 3"⟩ := by
  decide

example :
    Opencode.InitializeProvider ⟨"", ""⟩ ⟨[], []⟩ = .nilMsg := by decide
